import Mathlib

/-!
Shallow embedding of the JWK Set parsing core of
`src/3rdparty/libprocess/src/jwk_set.cpp` together with theorems about its
behaviour.  JSON values are modelled by an inductive type (the result of
stout's JSON parser), machine big integers (`BIGNUM`) by `Nat`, nullable
`BIGNUM*` pointers by `Option Nat`, and `std::map` registries by association
lists whose `insert` does not overwrite an existing key, mirroring
`std::map::insert`.
-/

set_option autoImplicit false

namespace JwkSpec

/-- A parsed JSON value, as produced by stout's `JSON::parse`.  Objects are
association lists of members (stout stores them in a `std::map`, which the
claims only ever access through key lookup). -/
inductive JValue where
  | str : String → JValue
  | num : Int → JValue
  | bool : Bool → JValue
  | null : JValue
  | obj : List (String × JValue) → JValue
  | arr : List JValue → JValue

/-- A JSON object: the list of its members. -/
abbrev JObject := List (String × JValue)

/-- Lookup in a string-keyed map, modelling both `JSON::Object::find` (for the
dot-free keys used by this file) and `std::map::find` / `std::map::at`:
the first entry with the given key, if any. -/
def mapFind {α : Type} : List (String × α) → String → Option α
  | [], _ => none
  | (k, v) :: rest, key => if k = key then some v else mapFind rest key

/-- `std::map::insert`: inserts only when the key is not present yet; an
existing entry is left unchanged. -/
def mapInsert {α : Type} (m : List (String × α)) (key : String) (v : α) :
    List (String × α) :=
  match mapFind m key with
  | some _ => m
  | none => m ++ [(key, v)]

/-- `findStringValueInJson` (jwk_set.cpp:45): locate `key` in the JSON object
and require its value to be a string. -/
def findStringValueInJson (json : JObject) (key : String) : Except String String :=
  match mapFind json key with
  | none => Except.error ("Failed to locate '" ++ key ++ "' in JWK")
  | some (JValue.str s) => Except.ok s
  | some _ => Except.error ("Token '" ++ key ++ "' is not a string")

/-- Modelled from the spec: stout's `base64::decode_url_safe` is not under
`src/`; the spec fixes it as base64url (RFC 4648 §5, URL-safe alphabet,
no padding).  Value of one base64url digit. -/
def base64UrlDigit (c : Char) : Option Nat :=
  if 'A' ≤ c ∧ c ≤ 'Z' then some (c.toNat - 'A'.toNat)
  else if 'a' ≤ c ∧ c ≤ 'z' then some (c.toNat - 'a'.toNat + 26)
  else if '0' ≤ c ∧ c ≤ '9' then some (c.toNat - '0'.toNat + 52)
  else if c = '-' then some 62
  else if c = '_' then some 63
  else none

/-- Modelled from the spec: regroup a list of 6-bit base64url digit values
into 8-bit bytes; a trailing group of one digit is malformed. -/
def base64Regroup : List Nat → Option (List Nat)
  | [] => some []
  | [_] => none
  | [a, b] => some [a * 4 + b / 16]
  | [a, b, c] => some [a * 4 + b / 16, b % 16 * 16 + c / 4]
  | a :: b :: c :: d :: rest =>
      (base64Regroup rest).map
        (fun t => (a * 4 + b / 16) :: (b % 16 * 16 + c / 4) :: (c % 4 * 64 + d) :: t)

/-- Modelled from the spec: `base64::decode_url_safe`, decoding a base64url
string without padding into a byte sequence, failing on characters outside
the URL-safe alphabet or on an impossible length. -/
def decode_url_safe (s : String) : Except String (List Nat) :=
  match s.data.mapM base64UrlDigit with
  | none => Except.error "invalid base64url character"
  | some digits =>
    match base64Regroup digits with
    | none => Except.error "invalid base64url length"
    | some bytes => Except.ok bytes

/-- OpenSSL's `BN_bin2bn`: a big-endian byte sequence read as an unsigned
arbitrary-precision integer.  (Its only failure mode, allocation failure,
is not modelled.) -/
def BN_bin2bn (bytes : List Nat) : Nat :=
  bytes.foldl (fun acc b => acc * 256 + b) 0

/-- `extractBigNum` (jwk_set.cpp:61): find the string field, base64url-decode
it and convert the bytes to a big number. -/
def extractBigNum (jwk : JObject) (paramKey : String) : Except String Nat :=
  match findStringValueInJson jwk paramKey with
  | Except.error e => Except.error e
  | Except.ok paramBase64 =>
    match decode_url_safe paramBase64 with
    | Except.error e => Except.error ("Failed to base64url-decode: " ++ e)
    | Except.ok param => Except.ok (BN_bin2bn param)

/-- The required-keys loop of `extractBigNums` (jwk_set.cpp:102): fail fast on
the first failing required key, otherwise insert the value. -/
def extractBigNumsRequired (jwk : JObject) :
    List String → List (String × Option Nat) →
    Except String (List (String × Option Nat))
  | [], bigNums => Except.ok bigNums
  | key :: rest, bigNums =>
    match extractBigNum jwk key with
    | Except.error e => Except.error e
    | Except.ok bn => extractBigNumsRequired jwk rest (mapInsert bigNums key (some bn))

/-- The optional-keys loop of `extractBigNums` (jwk_set.cpp:111): a failing
optional key is inserted as a null pointer (`none`). -/
def extractBigNumsOptional (jwk : JObject) :
    List String → List (String × Option Nat) → List (String × Option Nat)
  | [], bigNums => bigNums
  | key :: rest, bigNums =>
    match extractBigNum jwk key with
    | Except.error _ => extractBigNumsOptional jwk rest (mapInsert bigNums key none)
    | Except.ok bn => extractBigNumsOptional jwk rest (mapInsert bigNums key (some bn))

/-- `extractBigNums` (jwk_set.cpp:94): required keys first (fail-fast), then
optional keys (failures recorded as `none`). -/
def extractBigNums (jwk : JObject) (requiredKeys : List String)
    (optionalKeys : List String) : Except String (List (String × Option Nat)) :=
  match extractBigNumsRequired jwk requiredKeys [] with
  | Except.error e => Except.error e
  | Except.ok bigNums => Except.ok (extractBigNumsOptional jwk optionalKeys bigNums)

/-- OpenSSL `RSA` key material: every field is a nullable `BIGNUM*`.
Field names follow the OpenSSL structure (`dmp1` = dp, `dmq1` = dq,
`iqmp` = qi). -/
structure RSAKey where
  n : Option Nat
  e : Option Nat
  d : Option Nat
  p : Option Nat
  q : Option Nat
  dmp1 : Option Nat
  dmq1 : Option Nat
  iqmp : Option Nat
deriving DecidableEq, Repr

/-- OpenSSL `RSA_new`: a key with every field null. -/
def RSA_new : RSAKey :=
  { n := none, e := none, d := none, p := none, q := none,
    dmp1 := none, dmq1 := none, iqmp := none }

/-- OpenSSL `RSA_set0_key` on a freshly allocated key: fails (returns 0) when
`n` or `e` is null; `d` may be null. -/
def RSA_set0_key (r : RSAKey) (n e d : Option Nat) : Option RSAKey :=
  if n.isNone ∨ e.isNone then none
  else some { r with n := n, e := e, d := d }

/-- OpenSSL `RSA_set0_factors` on a key with no factors installed yet: fails
when `p` or `q` is null. -/
def RSA_set0_factors (r : RSAKey) (p q : Option Nat) : Option RSAKey :=
  if p.isNone ∨ q.isNone then none
  else some { r with p := p, q := q }

/-- OpenSSL `RSA_set0_crt_params` on a key with no CRT parameters installed
yet: fails when any of the three is null. -/
def RSA_set0_crt_params (r : RSAKey) (dmp1 dmq1 iqmp : Option Nat) : Option RSAKey :=
  if dmp1.isNone ∨ dmq1.isNone ∨ iqmp.isNone then none
  else some { r with dmp1 := dmp1, dmq1 := dmq1, iqmp := iqmp }

/-- `jwkToRSAPublicKey` (jwk_set.cpp:126): extract `e` and `n` (both required)
and install them.  (`std::map::at` on the guaranteed-present required keys is
modelled by `mapFind` followed by `Option.join`.) -/
def jwkToRSAPublicKey (jwk : JObject) : Except String RSAKey :=
  match extractBigNums jwk ["e", "n"] [] with
  | Except.error e => Except.error ("Failed to create RSA public key: " ++ e)
  | Except.ok params =>
    match RSA_set0_key RSA_new (mapFind params "n").join (mapFind params "e").join none with
    | none => Except.error "Failed to set public key parameters: "
    | some rsaKey => Except.ok rsaKey

/-- The `findOrNullptr` lambda of `jwkToRSAPrivateKey` (jwk_set.cpp:179):
a key absent from the map, or present as a null pointer, yields null. -/
def findOrNullptr (params : List (String × Option Nat)) (key : String) : Option Nat :=
  (mapFind params key).join

/-- `jwkToRSAPrivateKey` (jwk_set.cpp:150): `e`, `n`, `d` required;
`p`, `q`, `dp`, `dq`, `qi` optional; the prime factors are installed only when
both `p` and `q` are non-null and the CRT parameters only when all of `dp`,
`dq`, `qi` are non-null. -/
def jwkToRSAPrivateKey (jwk : JObject) : Except String RSAKey :=
  match extractBigNums jwk ["e", "n", "d"] ["p", "q", "dp", "dq", "qi"] with
  | Except.error e => Except.error ("Failed to create RSA private key: " ++ e)
  | Except.ok params =>
    match RSA_set0_key RSA_new (findOrNullptr params "n") (findOrNullptr params "e")
        (findOrNullptr params "d") with
    | none => Except.error "Failed to set private key parameters of RSA key."
    | some rsaKey =>
      let p := findOrNullptr params "p"
      let q := findOrNullptr params "q"
      let afterFactors : Except String RSAKey :=
        if p.isSome && q.isSome then
          match RSA_set0_factors rsaKey p q with
          | none => Except.error "Failed to set prime factors of RSA key."
          | some rsaKey2 => Except.ok rsaKey2
        else Except.ok rsaKey
      match afterFactors with
      | Except.error e => Except.error e
      | Except.ok rsaKey2 =>
        let dp := findOrNullptr params "dp"
        let dq := findOrNullptr params "dq"
        let qi := findOrNullptr params "qi"
        if dp.isSome && dq.isSome && qi.isSome then
          match RSA_set0_crt_params rsaKey2 dp dq qi with
          | none => Except.error "Failed to set CRT parameters of RSA key."
          | some rsaKey3 => Except.ok rsaKey3
        else Except.ok rsaKey2

/-- The `KeyType` enum of jwk_set.cpp:214. -/
inductive KeyType where
  | PUBLIC
  | PRIVATE
deriving DecidableEq, Repr

/-- `jwkToRSAKey` (jwk_set.cpp:219): a key object with a string field `d` is
built as a private key, any other object as a public key. -/
def jwkToRSAKey (jwk : JObject) : Except String (RSAKey × KeyType) :=
  match findStringValueInJson jwk "d" with
  | Except.ok _ =>
    match jwkToRSAPrivateKey jwk with
    | Except.error e => Except.error e
    | Except.ok privateKey => Except.ok (privateKey, KeyType.PRIVATE)
  | Except.error _ =>
    match jwkToRSAPublicKey jwk with
    | Except.error e => Except.error e
    | Except.ok publicKey => Except.ok (publicKey, KeyType.PUBLIC)

/-- `RSASigner` (jwk_rsa.hpp): a signer holding private RSA key material. -/
structure RSASigner where
  m_privateKey : RSAKey
deriving DecidableEq, Repr

/-- `RSAVerifier` (jwk_rsa.hpp): a verifier holding public RSA key material. -/
structure RSAVerifier where
  m_publicKey : RSAKey
deriving DecidableEq, Repr

/-- The `kid → Signer` registry (`std::map<string, unique_ptr<Signer>>`). -/
abbrev SignerMap := List (String × RSASigner)

/-- The `kid → Verifier` registry (`std::map<string, unique_ptr<Verifier>>`). -/
abbrev VerifierMap := List (String × RSAVerifier)

/-- `parseAndClassifyJwk` (jwk_set.cpp:238): returns the `Try<Nothing>` result
together with the updated registries (the C++ function mutates the two maps it
receives by reference).  Note that every control path of the C++ function ends
in `return Error(...)`: the final `return Error("Unsupported key type: ...")`
is reached even after an RSA key was successfully built and inserted. -/
def parseAndClassifyJwk (jwk : JObject) (signers : SignerMap)
    (verifiers : VerifierMap) : Except String Unit × SignerMap × VerifierMap :=
  match findStringValueInJson jwk "kty" with
  | Except.error e => (Except.error ("Failed to parse JWK: " ++ e), signers, verifiers)
  | Except.ok kty =>
    match findStringValueInJson jwk "kid" with
    | Except.error e => (Except.error ("Failed to parse JWK: " ++ e), signers, verifiers)
    | Except.ok kid =>
      if kty = "RSA" then
        match jwkToRSAKey jwk with
        | Except.error e => (Except.error e, signers, verifiers)
        | Except.ok (rsaKey, KeyType.PUBLIC) =>
            (Except.error ("Unsupported key type: " ++ kty),
             signers, mapInsert verifiers kid ⟨rsaKey⟩)
        | Except.ok (rsaKey, KeyType.PRIVATE) =>
            (Except.error ("Unsupported key type: " ++ kty),
             mapInsert signers kid ⟨rsaKey⟩, verifiers)
      else
        (Except.error ("Unsupported key type: " ++ kty), signers, verifiers)

/-- `JwkSet` (jwk_set.hpp): the two registries owned by a parsed key set. -/
structure JwkSet where
  m_signers : SignerMap
  m_verifiers : VerifierMap
deriving DecidableEq, Repr

/-- `JwkSet::findSigner` (jwk_set.cpp:282). -/
def JwkSet.findSigner (s : JwkSet) (kid : String) : Except String RSASigner :=
  match mapFind s.m_signers kid with
  | some signer => Except.ok signer
  | none => Except.error ("Signer with kid \"" ++ kid ++ "\" has not been found.")

/-- `JwkSet::findVerifier` (jwk_set.cpp:291). -/
def JwkSet.findVerifier (s : JwkSet) (kid : String) : Except String RSAVerifier :=
  match mapFind s.m_verifiers kid with
  | some verifier => Except.ok verifier
  | none => Except.error ("Verifier with kid \"" ++ kid ++ "\" has not been found.")

/-- The `foreach` loop of `JwkSet::parse` (jwk_set.cpp:320): a non-object
element aborts with a terminal error; otherwise the element is classified and,
when the per-key result is an error, the error is logged (`LOG(WARNING)`,
collected here in order in the first component). -/
def parseKeysLoop : List JValue → SignerMap → VerifierMap → List String →
    List String × Except String JwkSet
  | [], signers, verifiers, warnings => (warnings, Except.ok ⟨signers, verifiers⟩)
  | keyJson :: rest, signers, verifiers, warnings =>
    match keyJson with
    | JValue.obj members =>
      match parseAndClassifyJwk members signers verifiers with
      | (Except.error e, signers2, verifiers2) =>
          parseKeysLoop rest signers2 verifiers2 (warnings ++ [e])
      | (Except.ok _, signers2, verifiers2) =>
          parseKeysLoop rest signers2 verifiers2 warnings
    | _ => (warnings, Except.error "'keys' must contain objects only")

/-- `JwkSet::parse` (jwk_set.cpp:300) together with the warnings it logs.
The input is the outcome of `JSON::parse<JSON::Object>` on the raw text
(an error for text that is not valid JSON or whose top level is not an
object); that parser is external to this file. -/
def JwkSet.parseLogged (jwk : Except String JObject) :
    List String × Except String JwkSet :=
  match jwk with
  | Except.error e => ([], Except.error ("Failed to parse into JSON: " ++ e))
  | Except.ok json =>
    match mapFind json "keys" with
    | none => ([], Except.error "Failed to locate 'keys' in JWK")
    | some (JValue.arr keys) => parseKeysLoop keys [] [] []
    | some _ => ([], Except.error "Token 'keys' is not an array")

/-- `JwkSet::parse`: the `Try<JwkSet>` result alone. -/
def JwkSet.parse (jwk : Except String JObject) : Except String JwkSet :=
  (JwkSet.parseLogged jwk).2

/-- Whether a JSON value is an object (`JSON::Value::is<JSON::Object>`). -/
def JValue.isObj : JValue → Bool
  | JValue.obj _ => true
  | _ => false

/-- The registration a key object gives rise to, if any: its `kid` together
with the classification and the built key material.  `parseAndClassifyJwk`
inserts into a registry exactly when this is `some`. -/
def regOf (jwk : JObject) : Option (String × KeyType × RSAKey) :=
  match findStringValueInJson jwk "kty", findStringValueInJson jwk "kid" with
  | Except.ok kty, Except.ok kid =>
    if kty = "RSA" then
      match jwkToRSAKey jwk with
      | Except.ok (rsaKey, kt) => some (kid, kt, rsaKey)
      | Except.error _ => none
    else none
  | _, _ => none

/-- The registry effect of one iteration of the `foreach` loop of
`JwkSet::parse`: non-objects are handled before this point, and the per-key
`Try` result only feeds the warning log. -/
def stepKey (acc : SignerMap × VerifierMap) (j : JValue) : SignerMap × VerifierMap :=
  match j with
  | JValue.obj members => (parseAndClassifyJwk members acc.1 acc.2).2
  | _ => acc

/-- The key material a JSON value registers in the registry `ty` under kid
`K`, if any. -/
def regUnder (ty : KeyType) (K : String) (j : JValue) : Option RSAKey :=
  match j with
  | JValue.obj members =>
    match regOf members with
    | some (kid, kt, key) => if kid = K ∧ kt = ty then some key else none
    | none => none
  | _ => none

/-- A JSON value that registers nothing under kid `K` in either registry. -/
def notUnder (K : String) (j : JValue) : Bool :=
  match j with
  | JValue.obj members =>
    match regOf members with
    | some (kid, _, _) => decide (kid ≠ K)
    | none => true
  | _ => true

/-- Whether a key object registers anything at all. -/
def registers (j : JValue) : Bool :=
  match j with
  | JValue.obj members => (regOf members).isSome
  | _ => false

theorem mapFind_append {α : Type} (m₁ m₂ : List (String × α)) (k : String) :
    mapFind (m₁ ++ m₂) k =
      match mapFind m₁ k with
      | some v => some v
      | none => mapFind m₂ k := by
  induction m₁ with
  | nil => simp [mapFind]
  | cons hd tl ih =>
    obtain ⟨k1, v1⟩ := hd
    by_cases h : k1 = k <;> simp [mapFind, h, ih]

theorem mapFind_mapInsert_self {α : Type} (m : List (String × α)) (k : String) (v : α) :
    mapFind (mapInsert m k v) k =
      match mapFind m k with
      | some w => some w
      | none => some v := by
  unfold mapInsert
  cases h : mapFind m k with
  | some w => simp [h]
  | none => simp [mapFind_append, h, mapFind]

theorem mapFind_mapInsert_ne {α : Type} (m : List (String × α)) (k1 k : String)
    (v : α) (h : k1 ≠ k) : mapFind (mapInsert m k1 v) k = mapFind m k := by
  unfold mapInsert
  cases hf : mapFind m k1 with
  | some w => rfl
  | none =>
    rw [mapFind_append]
    cases hk : mapFind m k <;> simp [mapFind, h]

/-- The registry effect of `parseAndClassifyJwk`, expressed through `regOf`:
a key object inserts into exactly one registry when it registers, under its
`kid`, and leaves both registries unchanged otherwise. -/
theorem parseAndClassifyJwk_registries (jwk : JObject) (s : SignerMap)
    (v : VerifierMap) :
    (parseAndClassifyJwk jwk s v).2 =
      match regOf jwk with
      | some (kid, KeyType.PRIVATE, key) => (mapInsert s kid ⟨key⟩, v)
      | some (kid, KeyType.PUBLIC, key) => (s, mapInsert v kid ⟨key⟩)
      | none => (s, v) := by
  unfold parseAndClassifyJwk regOf
  cases findStringValueInJson jwk "kty" with
  | error e => rfl
  | ok kty =>
    cases findStringValueInJson jwk "kid" with
    | error e => rfl
    | ok kid =>
      by_cases h : kty = "RSA"
      · simp only [h, if_pos, if_true]
        cases hj : jwkToRSAKey jwk with
        | error e => rfl
        | ok pair =>
          obtain ⟨key, kt⟩ := pair
          cases kt <;> rfl
      · simp only [h, if_neg, if_false]

/-- When every element of `keys` is a JSON object, the loop of `JwkSet::parse`
terminates normally and returns the registries accumulated by `stepKey`. -/
theorem parseKeysLoop_ok : ∀ (keys : List JValue) (s : SignerMap)
    (v : VerifierMap) (w : List String), (∀ j ∈ keys, j.isObj = true) →
    (parseKeysLoop keys s v w).2 =
      Except.ok ⟨(keys.foldl stepKey (s, v)).1, (keys.foldl stepKey (s, v)).2⟩ := by
  intro keys
  induction keys with
  | nil => intro s v w h; rfl
  | cons j rest ih =>
    intro s v w h
    have hj := h j (List.mem_cons_self j rest)
    have hrest : ∀ x ∈ rest, x.isObj = true :=
      fun x hx => h x (List.mem_cons_of_mem _ hx)
    cases j with
    | obj members =>
      have hstep : stepKey (s, v) (JValue.obj members) =
          (parseAndClassifyJwk members s v).2 := rfl
      rcases hc : parseAndClassifyJwk members s v with ⟨res, s2, v2⟩
      cases res with
      | error e =>
        simp only [parseKeysLoop, hc, List.foldl_cons, hstep]
        exact ih s2 v2 (w ++ [e]) hrest
      | ok u =>
        simp only [parseKeysLoop, hc, List.foldl_cons, hstep]
        exact ih s2 v2 w hrest
    | str a => simp [JValue.isObj] at hj
    | num a => simp [JValue.isObj] at hj
    | bool a => simp [JValue.isObj] at hj
    | null => simp [JValue.isObj] at hj
    | arr a => simp [JValue.isObj] at hj

/-- When some element of `keys` is not a JSON object, the loop of
`JwkSet::parse` aborts with the terminal error. -/
theorem parseKeysLoop_error : ∀ (keys : List JValue) (s : SignerMap)
    (v : VerifierMap) (w : List String), (∃ j ∈ keys, j.isObj = false) →
    (parseKeysLoop keys s v w).2 =
      Except.error "'keys' must contain objects only" := by
  intro keys
  induction keys with
  | nil => intro s v w h; obtain ⟨j, hj, _⟩ := h; exact absurd hj (List.not_mem_nil j)
  | cons j rest ih =>
    intro s v w h
    cases j with
    | obj members =>
      obtain ⟨x, hx, hxo⟩ := h
      rcases List.mem_cons.mp hx with heq | hmem
      · subst heq; simp [JValue.isObj] at hxo
      · rcases hc : parseAndClassifyJwk members s v with ⟨res, s2, v2⟩
        cases res with
        | error e =>
          simp only [parseKeysLoop, hc]
          exact ih s2 v2 (w ++ [e]) ⟨x, hmem, hxo⟩
        | ok u =>
          simp only [parseKeysLoop, hc]
          exact ih s2 v2 w ⟨x, hmem, hxo⟩
    | str a => rfl
    | num a => rfl
    | bool a => rfl
    | null => rfl
    | arr a => rfl

/-- Lookup in the signer registry after folding the loop over `keys`: an entry
already present survives, and otherwise the first private-key registration
under `K` in document order is found. -/
theorem foldl_stepKey_signers_find : ∀ (keys : List JValue) (s : SignerMap)
    (v : VerifierMap) (K : String),
    mapFind ((keys.foldl stepKey (s, v)).1) K =
      (match mapFind s K with
       | some x => some x
       | none =>
         ((keys.filterMap (regUnder KeyType.PRIVATE K)).head?).map
           (fun key => (⟨key⟩ : RSASigner))) := by
  intro keys
  induction keys with
  | nil => intro s v K; cases h : mapFind s K <;> simp [h]
  | cons j rest ih =>
    intro s v K
    rw [List.foldl_cons, List.filterMap_cons]
    cases j with
    | obj members =>
      have hstep : stepKey (s, v) (JValue.obj members) =
          (parseAndClassifyJwk members s v).2 := rfl
      rw [hstep, parseAndClassifyJwk_registries]
      cases hro : regOf members with
      | none => simp only [regUnder, hro]; exact ih s v K
      | some reg =>
        obtain ⟨kid, kt, key⟩ := reg
        cases kt with
        | PRIVATE =>
          by_cases hk : kid = K
          · subst hk
            simp only [regUnder, hro, and_true, if_pos, List.head?_cons, Option.map_some]
            rw [ih]
            rw [mapFind_mapInsert_self]
            cases mapFind s kid <;> simp
          · simp only [regUnder, hro]
            rw [if_neg (by simp [hk]), ih]
            rw [mapFind_mapInsert_ne s kid K _ hk]
        | PUBLIC =>
          simp only [regUnder, hro]
          rw [if_neg (by simp), ih]
    | str a => simp only [stepKey, regUnder]; exact ih s v K
    | num a => simp only [stepKey, regUnder]; exact ih s v K
    | bool a => simp only [stepKey, regUnder]; exact ih s v K
    | null => simp only [stepKey, regUnder]; exact ih s v K
    | arr a => simp only [stepKey, regUnder]; exact ih s v K

/-- Lookup in the verifier registry after folding the loop over `keys`:
symmetric to the signer case. -/
theorem foldl_stepKey_verifiers_find : ∀ (keys : List JValue) (s : SignerMap)
    (v : VerifierMap) (K : String),
    mapFind ((keys.foldl stepKey (s, v)).2) K =
      (match mapFind v K with
       | some x => some x
       | none =>
         ((keys.filterMap (regUnder KeyType.PUBLIC K)).head?).map
           (fun key => (⟨key⟩ : RSAVerifier))) := by
  intro keys
  induction keys with
  | nil => intro s v K; cases h : mapFind v K <;> simp [h]
  | cons j rest ih =>
    intro s v K
    rw [List.foldl_cons, List.filterMap_cons]
    cases j with
    | obj members =>
      have hstep : stepKey (s, v) (JValue.obj members) =
          (parseAndClassifyJwk members s v).2 := rfl
      rw [hstep, parseAndClassifyJwk_registries]
      cases hro : regOf members with
      | none => simp only [regUnder, hro]; exact ih s v K
      | some reg =>
        obtain ⟨kid, kt, key⟩ := reg
        cases kt with
        | PUBLIC =>
          by_cases hk : kid = K
          · subst hk
            simp only [regUnder, hro, and_true, if_pos, List.head?_cons, Option.map_some]
            rw [ih]
            rw [mapFind_mapInsert_self]
            cases mapFind v kid <;> simp
          · simp only [regUnder, hro]
            rw [if_neg (by simp [hk]), ih]
            rw [mapFind_mapInsert_ne v kid K _ hk]
        | PRIVATE =>
          simp only [regUnder, hro]
          rw [if_neg (by simp), ih]
    | str a => simp only [stepKey, regUnder]; exact ih s v K
    | num a => simp only [stepKey, regUnder]; exact ih s v K
    | bool a => simp only [stepKey, regUnder]; exact ih s v K
    | null => simp only [stepKey, regUnder]; exact ih s v K
    | arr a => simp only [stepKey, regUnder]; exact ih s v K

/-- A registry whose kids are pairwise distinct. -/
def keysNodup {α : Type} (m : List (String × α)) : Prop :=
  (m.map Prod.fst).Nodup

theorem mapFind_eq_none_iff {α : Type} (m : List (String × α)) (k : String) :
    mapFind m k = none ↔ k ∉ m.map Prod.fst := by
  induction m with
  | nil => simp [mapFind]
  | cons hd tl ih =>
    obtain ⟨k1, v1⟩ := hd
    by_cases h : k1 = k
    · subst h; simp [mapFind]
    · rw [mapFind, if_neg h, ih]
      simp only [List.map_cons, List.mem_cons, not_or]
      constructor
      · intro hnm; exact ⟨fun he => h he.symm, hnm⟩
      · intro hc; exact hc.2

theorem keysNodup_mapInsert {α : Type} (m : List (String × α)) (k : String)
    (v : α) (h : keysNodup m) : keysNodup (mapInsert m k v) := by
  unfold mapInsert
  cases hf : mapFind m k with
  | some w => exact h
  | none =>
    unfold keysNodup at h ⊢
    rw [List.map_append]
    simp only [List.map_cons, List.map_nil]
    rw [List.nodup_append]
    exact ⟨h, List.nodup_singleton k,
      by simpa using fun hk => (mapFind_eq_none_iff m k).mp hf hk⟩

/-- Folding the parse loop preserves distinctness of kids in both
registries. -/
theorem foldl_stepKey_keysNodup : ∀ (keys : List JValue) (s : SignerMap)
    (v : VerifierMap), keysNodup s → keysNodup v →
    keysNodup ((keys.foldl stepKey (s, v)).1) ∧
      keysNodup ((keys.foldl stepKey (s, v)).2) := by
  intro keys
  induction keys with
  | nil => intro s v hs hv; exact ⟨hs, hv⟩
  | cons j rest ih =>
    intro s v hs hv
    rw [List.foldl_cons]
    cases j with
    | obj members =>
      have hstep : stepKey (s, v) (JValue.obj members) =
          (parseAndClassifyJwk members s v).2 := rfl
      rw [hstep, parseAndClassifyJwk_registries]
      cases hro : regOf members with
      | none => exact ih s v hs hv
      | some reg =>
        obtain ⟨kid, kt, key⟩ := reg
        cases kt with
        | PRIVATE => exact ih _ v (keysNodup_mapInsert s kid _ hs) hv
        | PUBLIC => exact ih s _ hs (keysNodup_mapInsert v kid _ hv)
    | str a => exact ih s v hs hv
    | num a => exact ih s v hs hv
    | bool a => exact ih s v hs hv
    | null => exact ih s v hs hv
    | arr a => exact ih s v hs hv

theorem filter_key_eq_nil {α : Type} (m : List (String × α)) (K : String)
    (h : mapFind m K = none) :
    m.filter (fun entry => entry.1 == K) = [] := by
  induction m with
  | nil => rfl
  | cons hd tl ih =>
    obtain ⟨k1, v1⟩ := hd
    by_cases hk : k1 = K
    · rw [mapFind, if_pos hk] at h; exact absurd h (by simp)
    · rw [mapFind, if_neg hk] at h
      simpa [List.filter_cons, hk] using ih h

/-- In a registry with pairwise-distinct kids, a successful lookup means the
registry holds exactly one entry under that kid. -/
theorem filter_key_eq_single {α : Type} : ∀ (m : List (String × α)) (K : String)
    (x : α), keysNodup m → mapFind m K = some x →
    m.filter (fun entry => entry.1 == K) = [(K, x)] := by
  intro m
  induction m with
  | nil => intro K x _ h; exact absurd h (by simp [mapFind])
  | cons hd tl ih =>
    intro K x hn h
    obtain ⟨k1, v1⟩ := hd
    unfold keysNodup at hn
    simp only [List.map_cons, List.nodup_cons] at hn
    by_cases hk : k1 = K
    · have hx : v1 = x := by rw [mapFind, if_pos hk] at h; simpa using h
      have htl : mapFind tl K = none :=
        (mapFind_eq_none_iff tl K).mpr (hk ▸ hn.1)
      simp [List.filter_cons, hk, filter_key_eq_nil tl K htl, hx]
    · rw [mapFind, if_neg hk] at h
      simpa [List.filter_cons, hk] using ih K x hn.2 h

/-- The behaviour the spec ascribes to required-field extraction (spec §4.1):
a fail-fast traversal in which the first failing field aborts with its error
and otherwise each field contributes its extracted value, in order.  This is
the comparison definition for the batch-extraction claim; the source
definition is `extractBigNums`. -/
def requiredFieldsSpec (jwk : JObject) :
    List String → Except String (List (String × Option Nat))
  | [] => Except.ok []
  | k :: rest =>
    match extractBigNum jwk k with
    | Except.error e => Except.error e
    | Except.ok bn =>
      match requiredFieldsSpec jwk rest with
      | Except.error e => Except.error e
      | Except.ok pairs => Except.ok ((k, some bn) :: pairs)

/-- The behaviour the spec ascribes to optional-field extraction (spec §4.1):
every optional field contributes an entry, a failure of any kind becoming an
explicit absent (`none`) entry rather than an error. -/
def optionalFieldsSpec (jwk : JObject) (opt : List String) :
    List (String × Option Nat) :=
  opt.map (fun k => (k, (extractBigNum jwk k).toOption))

/-- The pairs produced by a successful fail-fast traversal carry exactly the
required key names, in order. -/
theorem requiredFieldsSpec_keys (jwk : JObject) : ∀ (req : List String)
    (pairs : List (String × Option Nat)),
    requiredFieldsSpec jwk req = Except.ok pairs →
    pairs.map Prod.fst = req := by
  intro req
  induction req with
  | nil =>
    intro pairs hm
    rw [requiredFieldsSpec] at hm
    have : pairs = [] := by simpa using hm.symm
    simp [this]
  | cons k rest ih =>
    intro pairs hm
    rw [requiredFieldsSpec] at hm
    cases he : extractBigNum jwk k with
    | error e => rw [he] at hm; exact absurd hm (by simp)
    | ok bn =>
      rw [he] at hm
      cases hm2 : requiredFieldsSpec jwk rest with
      | error e => rw [hm2] at hm; exact absurd hm (by simp)
      | ok pairs2 =>
        rw [hm2] at hm
        have hp : pairs = (k, some bn) :: pairs2 := by simpa using hm.symm
        subst hp
        simp [ih pairs2 hm2]

/-- Closed form of the required-keys loop: with pairwise-distinct keys not yet
in the accumulator, it is the fail-fast traversal of the required keys,
appending the extracted values in order. -/
theorem extractBigNumsRequired_eq : ∀ (req : List String) (jwk : JObject)
    (acc : List (String × Option Nat)), req.Nodup →
    (∀ k ∈ req, mapFind acc k = none) →
    extractBigNumsRequired jwk req acc =
      (requiredFieldsSpec jwk req).map (fun pairs => acc ++ pairs) := by
  intro req
  induction req with
  | nil =>
    intro jwk acc hnd hacc
    simp [extractBigNumsRequired, requiredFieldsSpec, Except.map]
  | cons k rest ih =>
    intro jwk acc hnd hacc
    rw [List.nodup_cons] at hnd
    cases he : extractBigNum jwk k with
    | error e => simp [extractBigNumsRequired, requiredFieldsSpec, he, Except.map]
    | ok bn =>
      have hk : mapFind acc k = none := hacc k (List.mem_cons_self k rest)
      have hins : mapInsert acc k (some bn) = acc ++ [(k, some bn)] := by
        unfold mapInsert; rw [hk]
      have hacc2 : ∀ k2 ∈ rest, mapFind (acc ++ [(k, some bn)]) k2 = none := by
        intro k2 hk2
        rw [mapFind_append, hacc k2 (List.mem_cons_of_mem _ hk2)]
        have hne : k ≠ k2 := fun hcontra => hnd.1 (hcontra ▸ hk2)
        simp [mapFind, hne]
      rw [extractBigNumsRequired, requiredFieldsSpec, he]
      show extractBigNumsRequired jwk rest (mapInsert acc k (some bn)) = _
      rw [hins, ih jwk _ hnd.2 hacc2]
      cases requiredFieldsSpec jwk rest with
      | error e => rfl
      | ok pairs => simp [Except.map]

/-- Closed form of the optional-keys loop: with pairwise-distinct keys not yet
in the accumulator, each optional key is appended with its extraction outcome,
a failure becoming a null entry. -/
theorem extractBigNumsOptional_eq : ∀ (opt : List String) (jwk : JObject)
    (acc : List (String × Option Nat)), opt.Nodup →
    (∀ k ∈ opt, mapFind acc k = none) →
    extractBigNumsOptional jwk opt acc = acc ++ optionalFieldsSpec jwk opt := by
  intro opt
  induction opt with
  | nil => intro jwk acc hnd hacc; simp [extractBigNumsOptional, optionalFieldsSpec]
  | cons k rest ih =>
    intro jwk acc hnd hacc
    rw [List.nodup_cons] at hnd
    have hk : mapFind acc k = none := hacc k (List.mem_cons_self k rest)
    have hacc2 : ∀ (x : Option Nat), ∀ k2 ∈ rest,
        mapFind (acc ++ [(k, x)]) k2 = none := by
      intro x k2 hk2
      rw [mapFind_append, hacc k2 (List.mem_cons_of_mem _ hk2)]
      have hne : k ≠ k2 := fun hcontra => hnd.1 (hcontra ▸ hk2)
      simp [mapFind, hne]
    cases he : extractBigNum jwk k with
    | error e =>
      have hins : mapInsert acc k none = acc ++ [(k, none)] := by
        unfold mapInsert; rw [hk]
      rw [extractBigNumsOptional, he]
      show extractBigNumsOptional jwk rest (mapInsert acc k none) = _
      rw [hins, ih jwk _ hnd.2 (hacc2 none)]
      simp [optionalFieldsSpec, he, Except.toOption]
    | ok bn =>
      have hins : mapInsert acc k (some bn) = acc ++ [(k, some bn)] := by
        unfold mapInsert; rw [hk]
      rw [extractBigNumsOptional, he]
      show extractBigNumsOptional jwk rest (mapInsert acc k (some bn)) = _
      rw [hins, ih jwk _ hnd.2 (hacc2 (some bn))]
      simp [optionalFieldsSpec, he, Except.toOption]

/-- Closed form of `extractBigNums` for pairwise-distinct key names: required
keys are traversed fail-fast, then every optional key contributes an entry
holding its extraction outcome. -/
theorem extractBigNums_eq (jwk : JObject) (req opt : List String)
    (h : (req ++ opt).Nodup) :
    extractBigNums jwk req opt =
      (requiredFieldsSpec jwk req).map
        (fun pairs => pairs ++ optionalFieldsSpec jwk opt) := by
  rw [List.nodup_append] at h
  obtain ⟨hreq, hopt, hdisj⟩ := h
  unfold extractBigNums
  rw [extractBigNumsRequired_eq req jwk [] hreq (fun k _ => rfl)]
  cases hm : requiredFieldsSpec jwk req with
  | error e => rfl
  | ok pairs =>
    simp only [Except.map, List.nil_append]
    rw [extractBigNumsOptional_eq opt jwk pairs hopt]
    intro k hk
    rw [mapFind_eq_none_iff, requiredFieldsSpec_keys jwk req pairs hm]
    intro hmem
    exact hdisj hmem hk

/-- Full characterization of `jwkToRSAPrivateKey` when the three required
fields extract successfully: the build always succeeds, the prime factors are
installed exactly when both `p` and `q` extract successfully, and the CRT
coefficients exactly when all of `dp`, `dq`, `qi` do; any other subset is
dropped without error. -/
theorem jwkToRSAPrivateKey_eq (jwk : JObject) (nV eV dV : Nat)
    (hn : extractBigNum jwk "n" = Except.ok nV)
    (he : extractBigNum jwk "e" = Except.ok eV)
    (hd : extractBigNum jwk "d" = Except.ok dV) :
    jwkToRSAPrivateKey jwk =
      Except.ok
        { n := some nV, e := some eV, d := some dV,
          p := if (extractBigNum jwk "p").toOption.isSome &&
                  (extractBigNum jwk "q").toOption.isSome
               then (extractBigNum jwk "p").toOption else none,
          q := if (extractBigNum jwk "p").toOption.isSome &&
                  (extractBigNum jwk "q").toOption.isSome
               then (extractBigNum jwk "q").toOption else none,
          dmp1 := if (extractBigNum jwk "dp").toOption.isSome &&
                     (extractBigNum jwk "dq").toOption.isSome &&
                     (extractBigNum jwk "qi").toOption.isSome
                  then (extractBigNum jwk "dp").toOption else none,
          dmq1 := if (extractBigNum jwk "dp").toOption.isSome &&
                     (extractBigNum jwk "dq").toOption.isSome &&
                     (extractBigNum jwk "qi").toOption.isSome
                  then (extractBigNum jwk "dq").toOption else none,
          iqmp := if (extractBigNum jwk "dp").toOption.isSome &&
                     (extractBigNum jwk "dq").toOption.isSome &&
                     (extractBigNum jwk "qi").toOption.isSome
                  then (extractBigNum jwk "qi").toOption else none } := by
  have hnd : ((["e", "n", "d"] : List String) ++ ["p", "q", "dp", "dq", "qi"]).Nodup := by
    decide
  have hreq : requiredFieldsSpec jwk ["e", "n", "d"] =
      Except.ok [("e", some eV), ("n", some nV), ("d", some dV)] := by
    simp [requiredFieldsSpec, he, hn, hd]
  unfold jwkToRSAPrivateKey
  rw [extractBigNums_eq jwk _ _ hnd, hreq]
  cases hp : extractBigNum jwk "p" <;> cases hq : extractBigNum jwk "q" <;>
    cases hdp : extractBigNum jwk "dp" <;> cases hdq : extractBigNum jwk "dq" <;>
    cases hqi : extractBigNum jwk "qi" <;>
    simp [Except.map, optionalFieldsSpec, hp, hq, hdp, hdq, hqi, Except.toOption,
      findOrNullptr, mapFind, RSA_set0_key, RSA_set0_factors, RSA_set0_crt_params,
      RSA_new]

/-- Computation of `regOf` for a well-formed public-key object: `kty = "RSA"`,
a string `kid`, valid base64url strings `n` and `e` and no member `d`. -/
theorem regOf_public (jwk : JObject) (K nS eS : String) (nB eB : List Nat)
    (hkty : mapFind jwk "kty" = some (JValue.str "RSA"))
    (hkid : mapFind jwk "kid" = some (JValue.str K))
    (hn : mapFind jwk "n" = some (JValue.str nS))
    (hnB : decode_url_safe nS = Except.ok nB)
    (he : mapFind jwk "e" = some (JValue.str eS))
    (heB : decode_url_safe eS = Except.ok eB)
    (hd : mapFind jwk "d" = none) :
    regOf jwk = some (K, KeyType.PUBLIC,
      { n := some (BN_bin2bn nB), e := some (BN_bin2bn eB), d := none,
        p := none, q := none, dmp1 := none, dmq1 := none, iqmp := none }) := by
  have hnd : ((["e", "n"] : List String) ++ ([] : List String)).Nodup := by decide
  have hreq : requiredFieldsSpec jwk ["e", "n"] =
      Except.ok [("e", some (BN_bin2bn eB)), ("n", some (BN_bin2bn nB))] := by
    simp [requiredFieldsSpec, extractBigNum, findStringValueInJson, hn, hnB, he, heB]
  have hpub : jwkToRSAPublicKey jwk =
      Except.ok
        { n := some (BN_bin2bn nB), e := some (BN_bin2bn eB), d := none,
          p := none, q := none, dmp1 := none, dmq1 := none, iqmp := none } := by
    unfold jwkToRSAPublicKey
    rw [extractBigNums_eq jwk _ _ hnd, hreq]
    simp [Except.map, optionalFieldsSpec, mapFind, RSA_set0_key, RSA_new]
  unfold regOf jwkToRSAKey
  simp [findStringValueInJson, hkty, hkid, hd, hpub]

/-- Computation of `regOf` for a well-formed minimal private-key object:
`kty = "RSA"`, a string `kid`, valid base64url strings `n`, `e` and `d`, and
no CRT members. -/
theorem regOf_private (jwk : JObject) (K nS eS dS : String) (nB eB dB : List Nat)
    (hkty : mapFind jwk "kty" = some (JValue.str "RSA"))
    (hkid : mapFind jwk "kid" = some (JValue.str K))
    (hn : mapFind jwk "n" = some (JValue.str nS))
    (hnB : decode_url_safe nS = Except.ok nB)
    (he : mapFind jwk "e" = some (JValue.str eS))
    (heB : decode_url_safe eS = Except.ok eB)
    (hd : mapFind jwk "d" = some (JValue.str dS))
    (hdB : decode_url_safe dS = Except.ok dB)
    (hp : mapFind jwk "p" = none) (hq : mapFind jwk "q" = none)
    (hdp : mapFind jwk "dp" = none) (hdq : mapFind jwk "dq" = none)
    (hqi : mapFind jwk "qi" = none) :
    regOf jwk = some (K, KeyType.PRIVATE,
      { n := some (BN_bin2bn nB), e := some (BN_bin2bn eB),
        d := some (BN_bin2bn dB),
        p := none, q := none, dmp1 := none, dmq1 := none, iqmp := none }) := by
  have hpriv := jwkToRSAPrivateKey_eq jwk (BN_bin2bn nB) (BN_bin2bn eB) (BN_bin2bn dB)
    (by simp [extractBigNum, findStringValueInJson, hn, hnB])
    (by simp [extractBigNum, findStringValueInJson, he, heB])
    (by simp [extractBigNum, findStringValueInJson, hd, hdB])
  rw [show extractBigNum jwk "p" = Except.error "Failed to locate 'p' in JWK" by
        simp [extractBigNum, findStringValueInJson, hp],
      show extractBigNum jwk "q" = Except.error "Failed to locate 'q' in JWK" by
        simp [extractBigNum, findStringValueInJson, hq],
      show extractBigNum jwk "dp" = Except.error "Failed to locate 'dp' in JWK" by
        simp [extractBigNum, findStringValueInJson, hdp],
      show extractBigNum jwk "dq" = Except.error "Failed to locate 'dq' in JWK" by
        simp [extractBigNum, findStringValueInJson, hdq],
      show extractBigNum jwk "qi" = Except.error "Failed to locate 'qi' in JWK" by
        simp [extractBigNum, findStringValueInJson, hqi]] at hpriv
  simp only [Except.toOption, Option.isSome_none, Bool.false_and, Bool.and_false,
    if_false, Bool.false_eq_true] at hpriv
  unfold regOf jwkToRSAKey
  simp [findStringValueInJson, hkty, hkid, hd, hpriv]

/-- A key object that registers nothing leaves the registries unchanged. -/
theorem stepKey_id_of_not_registers (acc : SignerMap × VerifierMap) (j : JValue)
    (h : registers j = false) : stepKey acc j = acc := by
  cases j with
  | obj members =>
    have hro : regOf members = none := by
      simpa [registers, Option.isSome_iff_exists] using h
    show (parseAndClassifyJwk members acc.1 acc.2).2 = acc
    rw [parseAndClassifyJwk_registries, hro]
  | str a => rfl
  | num a => rfl
  | bool a => rfl
  | null => rfl
  | arr a => rfl

/-- Dropping the key objects that register nothing does not change the
accumulated registries. -/
theorem foldl_stepKey_filter_registers : ∀ (keys : List JValue)
    (acc : SignerMap × VerifierMap),
    keys.foldl stepKey acc = (keys.filter registers).foldl stepKey acc := by
  intro keys
  induction keys with
  | nil => intro acc; rfl
  | cons j rest ih =>
    intro acc
    rw [List.foldl_cons, List.filter_cons]
    cases hr : registers j with
    | true => rw [if_pos rfl, List.foldl_cons]; exact ih (stepKey acc j)
    | false =>
      rw [stepKey_id_of_not_registers acc j hr]
      simpa using ih acc

/-- A JSON value satisfying `notUnder K` contributes no registration under
kid `K` in either registry. -/
theorem regUnder_eq_none_of_notUnder (K : String) (j : JValue) (ty : KeyType)
    (h : notUnder K j = true) : regUnder ty K j = none := by
  cases j with
  | obj members =>
    simp only [notUnder] at h
    simp only [regUnder]
    cases hro : regOf members with
    | none => rfl
    | some reg =>
      obtain ⟨kid, kt, key⟩ := reg
      rw [hro] at h
      have hne : kid ≠ K := by simpa using h
      simp [hne]
  | str a => rfl
  | num a => rfl
  | bool a => rfl
  | null => rfl
  | arr a => rfl

/-- Lookup of the key material registered under `K` in the registry selected
by `ty`. -/
def registryFind (J : JwkSet) (ty : KeyType) (K : String) : Option RSAKey :=
  match ty with
  | KeyType.PRIVATE => (mapFind J.m_signers K).map (fun sg => sg.m_privateKey)
  | KeyType.PUBLIC => (mapFind J.m_verifiers K).map (fun vr => vr.m_publicKey)

/-- Parsing a structurally valid document registers, under each kid and in
each registry, the key material of the first key object registering there. -/
theorem parse_registry_first (json : JObject) (keys : List JValue)
    (ty : KeyType) (K : String) (key1 : RSAKey) (rest : List RSAKey)
    (hk : mapFind json "keys" = some (JValue.arr keys))
    (hobj : ∀ j ∈ keys, j.isObj = true)
    (hfirst : keys.filterMap (regUnder ty K) = key1 :: rest) :
    ∃ J, JwkSet.parse (Except.ok json) = Except.ok J ∧
      registryFind J ty K = some key1 := by
  refine ⟨⟨(keys.foldl stepKey ([], [])).1, (keys.foldl stepKey ([], [])).2⟩, ?_, ?_⟩
  · show (JwkSet.parseLogged (Except.ok json)).2 = _
    simp only [JwkSet.parseLogged, hk]
    exact parseKeysLoop_ok keys [] [] [] hobj
  · cases ty with
    | PRIVATE =>
      show (mapFind (keys.foldl stepKey ([], [])).1 K).map _ = _
      rw [foldl_stepKey_signers_find keys [] [] K, hfirst]
      simp [mapFind]
    | PUBLIC =>
      show (mapFind (keys.foldl stepKey ([], [])).2 K).map _ = _
      rw [foldl_stepKey_verifiers_find keys [] [] K, hfirst]
      simp [mapFind]

/-- Claim C1 (code bug evidence): `parseAndClassifyJwk` returns an error on
every control path — the RSA branch falls through to
`return Error("Unsupported key type: " + kty)` even after successfully
registering a key — so a warning is emitted even for a key that is converted
and registered.  The second conjunct evaluates `JwkSet::parse` on a document
holding one well-formed RSA public key: the verifier is registered under kid
`abc` and the warning `Unsupported key type: RSA` is still logged,
contradicting the claim that a warning arises only for skipped keys. -/
theorem parseAndClassifyJwk_always_errors :
    (∀ (jwk : JObject) (s : SignerMap) (v : VerifierMap),
       ∃ e, (parseAndClassifyJwk jwk s v).1 = Except.error e) ∧
    JwkSet.parseLogged (Except.ok [("keys", JValue.arr [JValue.obj
        [("kid", JValue.str "abc"), ("kty", JValue.str "RSA"),
         ("n", JValue.str "AQAB"), ("e", JValue.str "AQAB")]])]) =
      (["Unsupported key type: RSA"],
       Except.ok
         { m_signers := [],
           m_verifiers := [("abc",
             ⟨{ n := some 65537, e := some 65537, d := none, p := none,
                q := none, dmp1 := none, dmq1 := none, iqmp := none }⟩)] }) := by
  constructor
  · intro jwk s v
    unfold parseAndClassifyJwk
    repeat' split
    all_goals exact ⟨_, rfl⟩
  · rfl

/-- Claim C6: `jwkToRSAKey` treats a key object as a private-key request,
invoking the private-key builder and tagging the result `PRIVATE`, exactly
when the object has a member `d` whose JSON value is a string; when `d` is
absent or has a non-string value, the public-key builder is invoked and the
result is tagged `PUBLIC`. -/
theorem jwkToRSAKey_classification (jwk : JObject) :
    jwkToRSAKey jwk =
      (match mapFind jwk "d" with
       | some (JValue.str _) =>
         match jwkToRSAPrivateKey jwk with
         | Except.error e => Except.error e
         | Except.ok k => Except.ok (k, KeyType.PRIVATE)
       | _ =>
         match jwkToRSAPublicKey jwk with
         | Except.error e => Except.error e
         | Except.ok k => Except.ok (k, KeyType.PUBLIC)) := by
  unfold jwkToRSAKey findStringValueInJson
  cases hf : mapFind jwk "d" with
  | none => rfl
  | some v => cases v <;> rfl

/-- Claim C7: whenever the required fields `n`, `e`, `d` extract successfully,
`jwkToRSAPrivateKey` succeeds, installs the prime factors exactly when both
`p` and `q` extract successfully, and installs the CRT coefficients exactly
when all three of `dp`, `dq`, `qi` do; any incomplete subset is dropped
without error.  In particular the factor fields depend only on whether both
of `p`, `q` succeeded, so a key with exactly one of `p`/`q` yields the same
key material as one with neither, and a minimal `n`,`e`,`d` key succeeds. -/
theorem jwkToRSAPrivateKey_crt_installation (jwk : JObject) (nV eV dV : Nat)
    (hn : extractBigNum jwk "n" = Except.ok nV)
    (he : extractBigNum jwk "e" = Except.ok eV)
    (hd : extractBigNum jwk "d" = Except.ok dV) :
    jwkToRSAPrivateKey jwk =
      Except.ok
        { n := some nV, e := some eV, d := some dV,
          p := if (extractBigNum jwk "p").toOption.isSome &&
                  (extractBigNum jwk "q").toOption.isSome
               then (extractBigNum jwk "p").toOption else none,
          q := if (extractBigNum jwk "p").toOption.isSome &&
                  (extractBigNum jwk "q").toOption.isSome
               then (extractBigNum jwk "q").toOption else none,
          dmp1 := if (extractBigNum jwk "dp").toOption.isSome &&
                     (extractBigNum jwk "dq").toOption.isSome &&
                     (extractBigNum jwk "qi").toOption.isSome
                  then (extractBigNum jwk "dp").toOption else none,
          dmq1 := if (extractBigNum jwk "dp").toOption.isSome &&
                     (extractBigNum jwk "dq").toOption.isSome &&
                     (extractBigNum jwk "qi").toOption.isSome
                  then (extractBigNum jwk "dq").toOption else none,
          iqmp := if (extractBigNum jwk "dp").toOption.isSome &&
                     (extractBigNum jwk "dq").toOption.isSome &&
                     (extractBigNum jwk "qi").toOption.isSome
                  then (extractBigNum jwk "qi").toOption else none } :=
  jwkToRSAPrivateKey_eq jwk nV eV dV hn he hd

/-- Witness for C7: a minimal private key (`n`, `e`, `d` only, with `p`
present but malformed) builds successfully with no factor and no CRT field
installed. -/
theorem jwkToRSAPrivateKey_crt_installation_witness :
    extractBigNum [("n", JValue.str "AQAB"), ("e", JValue.str "AQAB"),
        ("d", JValue.str "AQAB"), ("p", JValue.str "a(b")] "n" =
      Except.ok 65537 ∧
    jwkToRSAPrivateKey [("n", JValue.str "AQAB"), ("e", JValue.str "AQAB"),
        ("d", JValue.str "AQAB"), ("p", JValue.str "a(b")] =
      Except.ok
        { n := some 65537, e := some 65537, d := some 65537, p := none,
          q := none, dmp1 := none, dmq1 := none, iqmp := none } :=
  ⟨rfl, jwkToRSAPrivateKey_crt_installation
    [("n", JValue.str "AQAB"), ("e", JValue.str "AQAB"),
     ("d", JValue.str "AQAB"), ("p", JValue.str "a(b")]
    65537 65537 65537 rfl rfl rfl⟩

/-- Claim C8: batch big-integer extraction over pairwise-distinct field names
is the fail-fast traversal of the required fields (the first failing required
field aborts the whole extraction with its error), followed — on success — by
one entry per optional field in which any failure, be the field missing or
present but malformed, appears as an explicit absent value instead of an
error. -/
theorem extractBigNums_required_fail_fast_optional_lenient (jwk : JObject)
    (req opt : List String) (h : (req ++ opt).Nodup) :
    extractBigNums jwk req opt =
      (requiredFieldsSpec jwk req).map
        (fun pairs => pairs ++ optionalFieldsSpec jwk opt) :=
  extractBigNums_eq jwk req opt h

/-- Witness for C8: required `e` succeeds, optional `p` is present but
malformed and optional `q` is missing; both optional failures yield absent
entries and the extraction succeeds. -/
theorem extractBigNums_required_fail_fast_optional_lenient_witness :
    ((["e"] ++ ["p", "q"]) : List String).Nodup ∧
    extractBigNums [("e", JValue.str "AQAB"), ("p", JValue.str "a(b")]
        ["e"] ["p", "q"] =
      Except.ok [("e", some 65537), ("p", none), ("q", none)] :=
  ⟨by decide, extractBigNums_required_fail_fast_optional_lenient
    [("e", JValue.str "AQAB"), ("p", JValue.str "a(b")] ["e"] ["p", "q"]
    (by decide)⟩

/-- Claim C2: for a structurally valid document — `keys` present as an array
whose elements are all JSON objects — `parse` returns a non-error `JwkSet` no
matter how many individual key objects fail, and the result is the one
obtained by processing only the key objects that register something: each
failing key is omitted and the remaining keys are registered unaffected. -/
theorem parse_tolerates_per_key_failures (json : JObject) (keys : List JValue)
    (hk : mapFind json "keys" = some (JValue.arr keys))
    (hobj : ∀ j ∈ keys, j.isObj = true) :
    ∃ J, JwkSet.parse (Except.ok json) = Except.ok J ∧
      (parseKeysLoop (keys.filter registers) [] [] []).2 = Except.ok J := by
  refine ⟨⟨(keys.foldl stepKey ([], [])).1, (keys.foldl stepKey ([], [])).2⟩, ?_, ?_⟩
  · show (JwkSet.parseLogged (Except.ok json)).2 = _
    simp only [JwkSet.parseLogged, hk]
    exact parseKeysLoop_ok keys [] [] [] hobj
  · have hsub : ∀ j ∈ keys.filter registers, j.isObj = true :=
      fun j hj => hobj j (List.mem_of_mem_filter hj)
    rw [parseKeysLoop_ok (keys.filter registers) [] [] [] hsub,
      ← foldl_stepKey_filter_registers]

/-- Witness for C2: a document with one bad key (no `kty`) followed by one
well-formed public key parses without error; processing the good key alone
yields the same `JwkSet`. -/
theorem parse_tolerates_per_key_failures_witness :
    ∃ J, JwkSet.parse (Except.ok [("keys", JValue.arr
        [JValue.obj [("kid", JValue.str "bad")],
         JValue.obj [("kid", JValue.str "k1"), ("kty", JValue.str "RSA"),
           ("n", JValue.str "AQAB"), ("e", JValue.str "AQAB")]])]) =
      Except.ok J ∧
      (parseKeysLoop
        ([JValue.obj [("kid", JValue.str "bad")],
          JValue.obj [("kid", JValue.str "k1"), ("kty", JValue.str "RSA"),
            ("n", JValue.str "AQAB"), ("e", JValue.str "AQAB")]].filter
          registers) [] [] []).2 = Except.ok J :=
  parse_tolerates_per_key_failures
    [("keys", JValue.arr
      [JValue.obj [("kid", JValue.str "bad")],
       JValue.obj [("kid", JValue.str "k1"), ("kty", JValue.str "RSA"),
         ("n", JValue.str "AQAB"), ("e", JValue.str "AQAB")]])]
    [JValue.obj [("kid", JValue.str "bad")],
     JValue.obj [("kid", JValue.str "k1"), ("kty", JValue.str "RSA"),
       ("n", JValue.str "AQAB"), ("e", JValue.str "AQAB")]]
    rfl (by decide)

/-- Claim C3: `JwkSet::parse` returns a terminal error exactly when the
JSON-object parse of the text failed, the member `keys` is absent, `keys` is
present but not an array, or some element of the `keys` array is not a JSON
object — in the last case the whole parse fails even when sibling elements
are well-formed. -/
theorem parse_terminal_error_iff (doc : Except String JObject) :
    (∃ e, JwkSet.parse doc = Except.error e) ↔
      ((∃ e, doc = Except.error e) ∨
       (∃ json, doc = Except.ok json ∧ mapFind json "keys" = none) ∨
       (∃ json v, doc = Except.ok json ∧ mapFind json "keys" = some v ∧
          ∀ keys, v ≠ JValue.arr keys) ∨
       (∃ json keys j, doc = Except.ok json ∧
          mapFind json "keys" = some (JValue.arr keys) ∧ j ∈ keys ∧
          j.isObj = false)) := by
  constructor
  · rintro ⟨e, he⟩
    cases doc with
    | error e2 => exact Or.inl ⟨e2, rfl⟩
    | ok json =>
      cases hf : mapFind json "keys" with
      | none => exact Or.inr (Or.inl ⟨json, rfl, hf⟩)
      | some v =>
        cases v with
        | arr keys =>
          by_cases hall : ∀ j ∈ keys, j.isObj = true
          · exfalso
            simp only [JwkSet.parse, JwkSet.parseLogged, hf] at he
            rw [parseKeysLoop_ok keys [] [] [] hall] at he
            exact Except.noConfusion he
          · push_neg at hall
            obtain ⟨j, hj, hjo⟩ := hall
            exact Or.inr (Or.inr (Or.inr
              ⟨json, keys, j, rfl, hf, hj, by simpa using hjo⟩))
        | str s =>
          exact Or.inr (Or.inr (Or.inl
            ⟨json, JValue.str s, rfl, hf, fun keys h => JValue.noConfusion h⟩))
        | num a =>
          exact Or.inr (Or.inr (Or.inl
            ⟨json, JValue.num a, rfl, hf, fun keys h => JValue.noConfusion h⟩))
        | bool b =>
          exact Or.inr (Or.inr (Or.inl
            ⟨json, JValue.bool b, rfl, hf, fun keys h => JValue.noConfusion h⟩))
        | null =>
          exact Or.inr (Or.inr (Or.inl
            ⟨json, JValue.null, rfl, hf, fun keys h => JValue.noConfusion h⟩))
        | obj members =>
          exact Or.inr (Or.inr (Or.inl
            ⟨json, JValue.obj members, rfl, hf, fun keys h => JValue.noConfusion h⟩))
  · rintro (⟨e, he⟩ | ⟨json, hj, hf⟩ | ⟨json, v, hj, hf, hv⟩ |
      ⟨json, keys, j, hj, hf, hjm, hjo⟩)
    · subst he
      exact ⟨"Failed to parse into JSON: " ++ e, rfl⟩
    · subst hj
      refine ⟨"Failed to locate 'keys' in JWK", ?_⟩
      simp only [JwkSet.parse, JwkSet.parseLogged, hf]
    · subst hj
      cases v with
      | arr keys => exact absurd rfl (hv keys)
      | str s =>
        exact ⟨"Token 'keys' is not an array",
          by simp only [JwkSet.parse, JwkSet.parseLogged, hf]⟩
      | num a =>
        exact ⟨"Token 'keys' is not an array",
          by simp only [JwkSet.parse, JwkSet.parseLogged, hf]⟩
      | bool b =>
        exact ⟨"Token 'keys' is not an array",
          by simp only [JwkSet.parse, JwkSet.parseLogged, hf]⟩
      | null =>
        exact ⟨"Token 'keys' is not an array",
          by simp only [JwkSet.parse, JwkSet.parseLogged, hf]⟩
      | obj members =>
        exact ⟨"Token 'keys' is not an array",
          by simp only [JwkSet.parse, JwkSet.parseLogged, hf]⟩
    · subst hj
      refine ⟨"'keys' must contain objects only", ?_⟩
      show (JwkSet.parseLogged (Except.ok json)).2 = _
      simp only [JwkSet.parseLogged, hf]
      exact parseKeysLoop_error keys [] [] [] ⟨j, hjm, hjo⟩

theorem filterMap_none {α β : Type} (f : α → Option β) : ∀ (l : List α),
    (∀ a ∈ l, f a = none) → l.filterMap f = [] := by
  intro l
  induction l with
  | nil => intro h; rfl
  | cons a rest ih =>
    intro h
    rw [List.filterMap_cons, h a (List.mem_cons_self a rest)]
    exact ih (fun x hx => h x (List.mem_cons_of_mem _ hx))

/-- Claim C4: a key object with `kty = "RSA"`, valid base64url string fields
`n` and `e` and no field `d`, appearing in a structurally valid document in
which no other key object registers under its kid `K`, leads `parse` to
register exactly one verifier under `K` — holding the public key built from
`n` and `e` — and no signer under `K`. -/
theorem rsa_public_key_registers_one_verifier (json : JObject)
    (l1 l2 : List JValue) (jwk : JObject) (K nS eS : String) (nB eB : List Nat)
    (hk : mapFind json "keys" = some (JValue.arr (l1 ++ JValue.obj jwk :: l2)))
    (hobj : ∀ j ∈ l1 ++ JValue.obj jwk :: l2, j.isObj = true)
    (hkty : mapFind jwk "kty" = some (JValue.str "RSA"))
    (hkid : mapFind jwk "kid" = some (JValue.str K))
    (hn : mapFind jwk "n" = some (JValue.str nS))
    (hnB : decode_url_safe nS = Except.ok nB)
    (he : mapFind jwk "e" = some (JValue.str eS))
    (heB : decode_url_safe eS = Except.ok eB)
    (hd : mapFind jwk "d" = none)
    (hothers : ∀ j ∈ l1 ++ l2, notUnder K j = true) :
    ∃ J, JwkSet.parse (Except.ok json) = Except.ok J ∧
      J.m_verifiers.filter (fun entry => entry.1 == K) =
        [(K, ⟨{ n := some (BN_bin2bn nB), e := some (BN_bin2bn eB), d := none,
                p := none, q := none, dmp1 := none, dmq1 := none,
                iqmp := none }⟩)] ∧
      J.m_signers.filter (fun entry => entry.1 == K) = [] := by
  have hro := regOf_public jwk K nS eS nB eB hkty hkid hn hnB he heB hd
  have hl1 : ∀ j ∈ l1, notUnder K j = true :=
    fun j hj => hothers j (List.mem_append_left l2 hj)
  have hl2 : ∀ j ∈ l2, notUnder K j = true :=
    fun j hj => hothers j (List.mem_append_right l1 hj)
  have hvfm : (l1 ++ JValue.obj jwk :: l2).filterMap (regUnder KeyType.PUBLIC K) =
      [{ n := some (BN_bin2bn nB), e := some (BN_bin2bn eB), d := none,
         p := none, q := none, dmp1 := none, dmq1 := none, iqmp := none }] := by
    rw [List.filterMap_append, List.filterMap_cons,
      filterMap_none _ l1 (fun j hj =>
        regUnder_eq_none_of_notUnder K j KeyType.PUBLIC (hl1 j hj)),
      filterMap_none _ l2 (fun j hj =>
        regUnder_eq_none_of_notUnder K j KeyType.PUBLIC (hl2 j hj))]
    simp [regUnder, hro]
  have hsfm : (l1 ++ JValue.obj jwk :: l2).filterMap (regUnder KeyType.PRIVATE K) =
      [] := by
    rw [List.filterMap_append, List.filterMap_cons,
      filterMap_none _ l1 (fun j hj =>
        regUnder_eq_none_of_notUnder K j KeyType.PRIVATE (hl1 j hj)),
      filterMap_none _ l2 (fun j hj =>
        regUnder_eq_none_of_notUnder K j KeyType.PRIVATE (hl2 j hj))]
    simp [regUnder, hro]
  refine ⟨⟨((l1 ++ JValue.obj jwk :: l2).foldl stepKey ([], [])).1,
           ((l1 ++ JValue.obj jwk :: l2).foldl stepKey ([], [])).2⟩, ?_, ?_, ?_⟩
  · show (JwkSet.parseLogged (Except.ok json)).2 = _
    simp only [JwkSet.parseLogged, hk]
    exact parseKeysLoop_ok _ [] [] [] hobj
  · have hnod := foldl_stepKey_keysNodup (l1 ++ JValue.obj jwk :: l2) [] []
      (by simp [keysNodup]) (by simp [keysNodup])
    have hvfind : mapFind ((l1 ++ JValue.obj jwk :: l2).foldl stepKey ([], [])).2 K =
        some ⟨{ n := some (BN_bin2bn nB), e := some (BN_bin2bn eB), d := none,
                p := none, q := none, dmp1 := none, dmq1 := none,
                iqmp := none }⟩ := by
      rw [foldl_stepKey_verifiers_find, hvfm]
      simp [mapFind]
    exact filter_key_eq_single _ K _ hnod.2 hvfind
  · have hsfind : mapFind ((l1 ++ JValue.obj jwk :: l2).foldl stepKey ([], [])).1 K =
        none := by
      rw [foldl_stepKey_signers_find, hsfm]
      simp [mapFind]
    exact filter_key_eq_nil _ K hsfind

/-- Witness for C4: a one-key document with a well-formed RSA public key
yields exactly one verifier and no signer under its kid. -/
theorem rsa_public_key_registers_one_verifier_witness :
    ∃ J, JwkSet.parse (Except.ok [("keys", JValue.arr
        [JValue.obj [("kid", JValue.str "k1"), ("kty", JValue.str "RSA"),
          ("n", JValue.str "AQAB"), ("e", JValue.str "AQAB")]])]) =
      Except.ok J ∧
      J.m_verifiers.filter (fun entry => entry.1 == "k1") =
        [("k1", ⟨{ n := some 65537, e := some 65537, d := none,
                   p := none, q := none, dmp1 := none, dmq1 := none,
                   iqmp := none }⟩)] ∧
      J.m_signers.filter (fun entry => entry.1 == "k1") = [] :=
  rsa_public_key_registers_one_verifier
    [("keys", JValue.arr
      [JValue.obj [("kid", JValue.str "k1"), ("kty", JValue.str "RSA"),
        ("n", JValue.str "AQAB"), ("e", JValue.str "AQAB")]])]
    [] []
    [("kid", JValue.str "k1"), ("kty", JValue.str "RSA"),
     ("n", JValue.str "AQAB"), ("e", JValue.str "AQAB")]
    "k1" "AQAB" "AQAB" [1, 0, 1] [1, 0, 1]
    rfl (by decide) rfl rfl rfl rfl rfl rfl rfl
    (fun j hj => absurd hj (List.not_mem_nil j))

/-- Claim C5: a key object with `kty = "RSA"`, valid base64url string fields
`n`, `e` and `d` and no CRT fields, appearing in a structurally valid
document in which no other key object registers under its kid `K`, leads
`parse` to register exactly one signer under `K` — holding the private key
built from `n`, `e`, `d` — and no verifier under `K`. -/
theorem rsa_private_key_registers_one_signer (json : JObject)
    (l1 l2 : List JValue) (jwk : JObject) (K nS eS dS : String)
    (nB eB dB : List Nat)
    (hk : mapFind json "keys" = some (JValue.arr (l1 ++ JValue.obj jwk :: l2)))
    (hobj : ∀ j ∈ l1 ++ JValue.obj jwk :: l2, j.isObj = true)
    (hkty : mapFind jwk "kty" = some (JValue.str "RSA"))
    (hkid : mapFind jwk "kid" = some (JValue.str K))
    (hn : mapFind jwk "n" = some (JValue.str nS))
    (hnB : decode_url_safe nS = Except.ok nB)
    (he : mapFind jwk "e" = some (JValue.str eS))
    (heB : decode_url_safe eS = Except.ok eB)
    (hd : mapFind jwk "d" = some (JValue.str dS))
    (hdB : decode_url_safe dS = Except.ok dB)
    (hp : mapFind jwk "p" = none) (hq : mapFind jwk "q" = none)
    (hdp : mapFind jwk "dp" = none) (hdq : mapFind jwk "dq" = none)
    (hqi : mapFind jwk "qi" = none)
    (hothers : ∀ j ∈ l1 ++ l2, notUnder K j = true) :
    ∃ J, JwkSet.parse (Except.ok json) = Except.ok J ∧
      J.m_signers.filter (fun entry => entry.1 == K) =
        [(K, ⟨{ n := some (BN_bin2bn nB), e := some (BN_bin2bn eB),
                d := some (BN_bin2bn dB), p := none, q := none,
                dmp1 := none, dmq1 := none, iqmp := none }⟩)] ∧
      J.m_verifiers.filter (fun entry => entry.1 == K) = [] := by
  have hro := regOf_private jwk K nS eS dS nB eB dB hkty hkid hn hnB he heB
    hd hdB hp hq hdp hdq hqi
  have hl1 : ∀ j ∈ l1, notUnder K j = true :=
    fun j hj => hothers j (List.mem_append_left l2 hj)
  have hl2 : ∀ j ∈ l2, notUnder K j = true :=
    fun j hj => hothers j (List.mem_append_right l1 hj)
  have hsfm : (l1 ++ JValue.obj jwk :: l2).filterMap (regUnder KeyType.PRIVATE K) =
      [{ n := some (BN_bin2bn nB), e := some (BN_bin2bn eB),
         d := some (BN_bin2bn dB), p := none, q := none,
         dmp1 := none, dmq1 := none, iqmp := none }] := by
    rw [List.filterMap_append, List.filterMap_cons,
      filterMap_none _ l1 (fun j hj =>
        regUnder_eq_none_of_notUnder K j KeyType.PRIVATE (hl1 j hj)),
      filterMap_none _ l2 (fun j hj =>
        regUnder_eq_none_of_notUnder K j KeyType.PRIVATE (hl2 j hj))]
    simp [regUnder, hro]
  have hvfm : (l1 ++ JValue.obj jwk :: l2).filterMap (regUnder KeyType.PUBLIC K) =
      [] := by
    rw [List.filterMap_append, List.filterMap_cons,
      filterMap_none _ l1 (fun j hj =>
        regUnder_eq_none_of_notUnder K j KeyType.PUBLIC (hl1 j hj)),
      filterMap_none _ l2 (fun j hj =>
        regUnder_eq_none_of_notUnder K j KeyType.PUBLIC (hl2 j hj))]
    simp [regUnder, hro]
  refine ⟨⟨((l1 ++ JValue.obj jwk :: l2).foldl stepKey ([], [])).1,
           ((l1 ++ JValue.obj jwk :: l2).foldl stepKey ([], [])).2⟩, ?_, ?_, ?_⟩
  · show (JwkSet.parseLogged (Except.ok json)).2 = _
    simp only [JwkSet.parseLogged, hk]
    exact parseKeysLoop_ok _ [] [] [] hobj
  · have hnod := foldl_stepKey_keysNodup (l1 ++ JValue.obj jwk :: l2) [] []
      (by simp [keysNodup]) (by simp [keysNodup])
    have hsfind : mapFind ((l1 ++ JValue.obj jwk :: l2).foldl stepKey ([], [])).1 K =
        some ⟨{ n := some (BN_bin2bn nB), e := some (BN_bin2bn eB),
                d := some (BN_bin2bn dB), p := none, q := none,
                dmp1 := none, dmq1 := none, iqmp := none }⟩ := by
      rw [foldl_stepKey_signers_find, hsfm]
      simp [mapFind]
    exact filter_key_eq_single _ K _ hnod.1 hsfind
  · have hvfind : mapFind ((l1 ++ JValue.obj jwk :: l2).foldl stepKey ([], [])).2 K =
        none := by
      rw [foldl_stepKey_verifiers_find, hvfm]
      simp [mapFind]
    exact filter_key_eq_nil _ K hvfind

/-- Witness for C5: a one-key document with a minimal RSA private key yields
exactly one signer and no verifier under its kid. -/
theorem rsa_private_key_registers_one_signer_witness :
    ∃ J, JwkSet.parse (Except.ok [("keys", JValue.arr
        [JValue.obj [("kid", JValue.str "k1"), ("kty", JValue.str "RSA"),
          ("n", JValue.str "AQAB"), ("e", JValue.str "AQAB"),
          ("d", JValue.str "AQAB")]])]) =
      Except.ok J ∧
      J.m_signers.filter (fun entry => entry.1 == "k1") =
        [("k1", ⟨{ n := some 65537, e := some 65537, d := some 65537,
                   p := none, q := none, dmp1 := none, dmq1 := none,
                   iqmp := none }⟩)] ∧
      J.m_verifiers.filter (fun entry => entry.1 == "k1") = [] :=
  rsa_private_key_registers_one_signer
    [("keys", JValue.arr
      [JValue.obj [("kid", JValue.str "k1"), ("kty", JValue.str "RSA"),
        ("n", JValue.str "AQAB"), ("e", JValue.str "AQAB"),
        ("d", JValue.str "AQAB")]])]
    [] []
    [("kid", JValue.str "k1"), ("kty", JValue.str "RSA"),
     ("n", JValue.str "AQAB"), ("e", JValue.str "AQAB"),
     ("d", JValue.str "AQAB")]
    "k1" "AQAB" "AQAB" "AQAB" [1, 0, 1] [1, 0, 1] [1, 0, 1]
    rfl (by decide) rfl rfl rfl rfl rfl rfl rfl rfl rfl rfl rfl rfl rfl
    (fun j hj => absurd hj (List.not_mem_nil j))

/-- Claim C9: in a structurally valid document in which two or more
successfully built keys map to the same kid `K` within the same registry,
`parse` succeeds and the registry holds, under `K`, the key material of the
first such key object in document order; the later registrations do not
change the entry. -/
theorem duplicate_kid_first_registration_wins (json : JObject)
    (keys : List JValue) (ty : KeyType) (K : String) (key1 : RSAKey)
    (rest : List RSAKey)
    (hk : mapFind json "keys" = some (JValue.arr keys))
    (hobj : ∀ j ∈ keys, j.isObj = true)
    (hfirst : keys.filterMap (regUnder ty K) = key1 :: rest)
    (htwo : rest ≠ []) :
    ∃ J, JwkSet.parse (Except.ok json) = Except.ok J ∧
      registryFind J ty K = some key1 :=
  parse_registry_first json keys ty K key1 rest hk hobj hfirst

/-- Witness for C9: two well-formed private keys share kid `k`; the signer
registered under `k` is the first one (modulus 65537, not 131073). -/
theorem duplicate_kid_first_registration_wins_witness :
    ∃ J, JwkSet.parse (Except.ok [("keys", JValue.arr
        [JValue.obj [("kid", JValue.str "k"), ("kty", JValue.str "RSA"),
          ("n", JValue.str "AQAB"), ("e", JValue.str "AQAB"),
          ("d", JValue.str "AQAB")],
         JValue.obj [("kid", JValue.str "k"), ("kty", JValue.str "RSA"),
          ("n", JValue.str "AgAB"), ("e", JValue.str "AQAB"),
          ("d", JValue.str "AQAB")]])]) =
      Except.ok J ∧
      registryFind J KeyType.PRIVATE "k" =
        some { n := some 65537, e := some 65537, d := some 65537,
               p := none, q := none, dmp1 := none, dmq1 := none,
               iqmp := none } :=
  duplicate_kid_first_registration_wins
    [("keys", JValue.arr
      [JValue.obj [("kid", JValue.str "k"), ("kty", JValue.str "RSA"),
        ("n", JValue.str "AQAB"), ("e", JValue.str "AQAB"),
        ("d", JValue.str "AQAB")],
       JValue.obj [("kid", JValue.str "k"), ("kty", JValue.str "RSA"),
        ("n", JValue.str "AgAB"), ("e", JValue.str "AQAB"),
        ("d", JValue.str "AQAB")]])]
    [JValue.obj [("kid", JValue.str "k"), ("kty", JValue.str "RSA"),
      ("n", JValue.str "AQAB"), ("e", JValue.str "AQAB"),
      ("d", JValue.str "AQAB")],
     JValue.obj [("kid", JValue.str "k"), ("kty", JValue.str "RSA"),
      ("n", JValue.str "AgAB"), ("e", JValue.str "AQAB"),
      ("d", JValue.str "AQAB")]]
    KeyType.PRIVATE "k"
    { n := some 65537, e := some 65537, d := some 65537, p := none,
      q := none, dmp1 := none, dmq1 := none, iqmp := none }
    [{ n := some 131073, e := some 65537, d := some 65537, p := none,
       q := none, dmp1 := none, dmq1 := none, iqmp := none }]
    rfl (by decide) rfl (List.cons_ne_nil _ _)

/-- Claim C10: a skipped key object does not reserve its kid — when an
earlier key object with kid `K` registers nothing (it failed with a per-key
error) and a later key object is the first to register under `K` in some
registry, `parse` succeeds and the later key's material is registered under
`K`. -/
theorem skipped_key_frees_its_kid (json : JObject) (l1 l2 : List JValue)
    (bad : JObject) (ty : KeyType) (K : String) (keyG : RSAKey)
    (rest : List RSAKey)
    (hk : mapFind json "keys" = some (JValue.arr (l1 ++ JValue.obj bad :: l2)))
    (hobj : ∀ j ∈ l1 ++ JValue.obj bad :: l2, j.isObj = true)
    (hbadkid : mapFind bad "kid" = some (JValue.str K))
    (hbadfails : regOf bad = none)
    (hl1 : ∀ j ∈ l1, regUnder ty K j = none)
    (hlater : l2.filterMap (regUnder ty K) = keyG :: rest) :
    ∃ J, JwkSet.parse (Except.ok json) = Except.ok J ∧
      registryFind J ty K = some keyG := by
  apply parse_registry_first json _ ty K keyG rest hk hobj
  rw [List.filterMap_append, filterMap_none _ l1 hl1, List.filterMap_cons]
  simp only [regUnder, hbadfails]
  simpa using hlater

/-- Witness for C10: the first key object has kid `k` but no `kty`, so it is
skipped; the second key object with the same kid registers its verifier
under `k`. -/
theorem skipped_key_frees_its_kid_witness :
    ∃ J, JwkSet.parse (Except.ok [("keys", JValue.arr
        [JValue.obj [("kid", JValue.str "k")],
         JValue.obj [("kid", JValue.str "k"), ("kty", JValue.str "RSA"),
          ("n", JValue.str "AQAB"), ("e", JValue.str "AQAB")]])]) =
      Except.ok J ∧
      registryFind J KeyType.PUBLIC "k" =
        some { n := some 65537, e := some 65537, d := none, p := none,
               q := none, dmp1 := none, dmq1 := none, iqmp := none } :=
  skipped_key_frees_its_kid
    [("keys", JValue.arr
      [JValue.obj [("kid", JValue.str "k")],
       JValue.obj [("kid", JValue.str "k"), ("kty", JValue.str "RSA"),
        ("n", JValue.str "AQAB"), ("e", JValue.str "AQAB")]])]
    [] [JValue.obj [("kid", JValue.str "k"), ("kty", JValue.str "RSA"),
        ("n", JValue.str "AQAB"), ("e", JValue.str "AQAB")]]
    [("kid", JValue.str "k")] KeyType.PUBLIC "k"
    { n := some 65537, e := some 65537, d := none, p := none, q := none,
      dmp1 := none, dmq1 := none, iqmp := none }
    []
    rfl (by decide) rfl rfl (fun j hj => absurd hj (List.not_mem_nil j)) rfl

end JwkSpec
